import Mathlib

/-!
Shallow embedding of `src/vs/workbench/contrib/chat/browser/tools/tools.ts`
(the `BuiltinToolsContribution` startup contribution and the `EditTool`
tool implementation) from the jeanp413/vscode repository slice.

The TypeScript file is an orchestration layer over injected services.
We embed it as follows:

* every injected service behaviour (workspace membership, ignore policy,
  chat session lookup, current editing session, code mapper, observable
  states of the editing session) is a field of an `Env` record;
* `EditTool.invoke` becomes a pure function `invoke : Env → IToolInvocation →
  CancellationToken → Outcome × List Step`, where the `List Step` is the
  ordered trace of service calls and chat-progress events the invocation
  performs, and `Outcome` distinguishes a normal return, a thrown generic
  `Error`, a TypeError arising from an unguarded dereference of an absent
  value, and a run whose awaited promise never resolves;
* the `await new Promise(... autorun ...)` block is embedded by giving the
  environment the (countable) sequence of states the
  `currentEditingSessionObs` observable takes, in order; the autorun
  resolves at the first state satisfying the condition the source checks.
-/

namespace VSTools

/-- URIs as produced by `URI.file`: we only need the path component and a
`toString` that is injective on it, since the source compares URIs via
`toString()`. -/
structure URI where
  path : String
deriving DecidableEq

def URI.file (p : String) : URI := ⟨p⟩

def URI.toString (u : URI) : String := "file://" ++ u.path

/-- an abstract text-edit payload as forwarded verbatim by the edit sink. -/
structure TextEdit where
  payload : String
deriving DecidableEq

/-- the tool parameter object, `interface EditToolParams` in the source. -/
structure EditToolParams where
  filePath : String
  explanation : String
  code : String
deriving DecidableEq

/-- the part of `IToolInvocation.context` that `invoke` reads. -/
structure ToolInvocationContext where
  sessionId : String
deriving DecidableEq

/-- the part of `IToolInvocation` that `invoke` reads; `parameters` is cast
to `EditToolParams` in the source, so we give it that type directly. -/
structure IToolInvocation where
  context : Option ToolInvocationContext
  parameters : EditToolParams
deriving DecidableEq

/-- a cancellation token, tracked purely by identity so theorems can speak
about which calls the caller-supplied token is forwarded into. -/
structure CancellationToken where
  id : Nat
deriving DecidableEq

/-- one request of a chat model; only its identity matters here. -/
structure ChatRequestModel where
  id : Nat
deriving DecidableEq

/-- the part of `ChatModel` that `invoke` reads: its `sessionId` and its
request list (`getRequests()`). -/
structure ChatModel where
  sessionId : String
  requests : List ChatRequestModel
deriving DecidableEq

/-- one code block of the request passed to `ICodeMapperService.mapCode`. -/
structure CodeBlock where
  code : String
  resource : URI
  markdownBeforeBlock : String
deriving DecidableEq

/-- the result object of `mapCode`; `errorMessage` is optional there. -/
structure MapCodeResult where
  errorMessage : Option String
deriving DecidableEq

/-- behaviour of one `mapCode` call: the ordered `textEdit(target, edits)`
callbacks it issues on the supplied edit sink, and its returned result
(`undefined` modelled as `none`). -/
structure MapCodeBehavior where
  callbacks : List (URI × List TextEdit)
  result : Option MapCodeResult
deriving DecidableEq

/-- one entry of the current editing session, as read inside the autorun:
`modifiedURI` and the value the `isCurrentlyBeingModified` observable
reads at that instant. -/
structure ModifiedFileEntry where
  modifiedURI : URI
  isCurrentlyBeingModified : Bool
deriving DecidableEq

/-- state of the current editing session as observed at one instant by the
autorun (the value of `currentEditingSessionObs` plus its `entries`). -/
structure EditingSessionState where
  entries : List ModifiedFileEntry
deriving DecidableEq

/-- the progress payloads `invoke` appends via `acceptResponseProgress`.
The two forwarded `textEdit` events carry no `done` field (`none`), the
final one carries `done: true` (`some true`). -/
inductive ChatProgress where
  | markdownContent (content : String)
  | codeblockUri (uri : URI)
  | textEdit (uri : URI) (edits : List TextEdit) (done : Option Bool)
deriving DecidableEq

/-- one observable step of an invocation: a call into an injected service
or a progress event appended to the chat model, in program order. -/
inductive Step where
  | isInsideWorkspaceCall (uri : URI)
  | fileIsIgnoredCall (uri : URI) (token : CancellationToken)
  | getSessionCall (sessionId : String)
  | progress (p : ChatProgress)
  | currentEditingSessionRead (chatSessionId : Option String)
  | mapCodeCall (codeBlocks : List CodeBlock) (token : CancellationToken)
  | awaitResolved (index : Nat)
  | saveCall (uri : URI)
deriving DecidableEq

/-- one `content` element of an `IToolResult`. -/
structure ToolResultTextPart where
  kind : String
  value : String
deriving DecidableEq

/-- the structured result payload returned by the tool. -/
structure IToolResult where
  content : List ToolResultTextPart
deriving DecidableEq

/-- how an invocation ends: a returned result, a thrown generic `Error`
(`throw new Error(msg)` in the source), a TypeError thrown by
dereferencing an absent session or request (the unguarded
`getSession(...) as ChatModel` / `getRequests().at(-1)!` pattern), or a
run that never completes because the awaited promise never resolves. -/
inductive Outcome where
  | ok (result : IToolResult)
  | error (msg : String)
  | crash (what : String)
  | pending
deriving DecidableEq

/-- the injected services, as the data `invoke` consumes from them. -/
structure Env where
  isInsideWorkspace : URI → Bool
  fileIsIgnored : URI → CancellationToken → Bool
  getSession : String → Option ChatModel
  currentEditingSession : Option String
  mapCode : List CodeBlock → CancellationToken → MapCodeBehavior
  obsStates : List (Option EditingSessionState)

/-- JavaScript truthiness of `result?.errorMessage`: a string is truthy
iff it is present and non-empty. -/
def truthyErrorMessage : Option MapCodeResult → Option String
  | none => none
  | some r =>
    match r.errorMessage with
    | none => none
    | some s => if s = "" then none else some s

/-- the condition checked by the autorun body: the observable state holds
an entry whose `modifiedURI.toString()` equals `uri.toString()` and whose
`isCurrentlyBeingModified` observable reads `false`. -/
def awaitCondition (uri : URI) (st : Option EditingSessionState) : Bool :=
  match st with
  | none => false
  | some s =>
    match s.entries.find? (fun e => e.modifiedURI.toString == uri.toString) with
    | none => false
    | some e => !e.isCurrentlyBeingModified

/-- index of the first observable state at which the autorun condition
holds; `none` when it never holds, in which case the awaited promise
never resolves. -/
def firstResolveIndex (uri : URI) : List (Option EditingSessionState) → Option Nat
  | [] => none
  | st :: rest =>
    if awaitCondition uri st then some 0
    else (firstResolveIndex uri rest).map (· + 1)

/-- the three service reads performed by the validation chain, in order. -/
def validationSteps (uri : URI) (token : CancellationToken) (sessionId : String) :
    List Step :=
  [.isInsideWorkspaceCall uri, .fileIsIgnoredCall uri token, .getSessionCall sessionId]

/-- the three content progress events appended before the editing-session
check: opening fence, codeblock URI, code plus closing fence. -/
def contentSteps (uri : URI) (code : String) : List Step :=
  [.progress (.markdownContent "\n````\n"),
   .progress (.codeblockUri uri),
   .progress (.markdownContent (code ++ "\n````\n"))]

/-- the progress events produced by the edit sink: each `textEdit(target,
edits)` callback of the mapper is forwarded verbatim as a `textEdit`
progress event with no `done` field. -/
def sinkSteps (callbacks : List (URI × List TextEdit)) : List Step :=
  callbacks.map (fun c => .progress (.textEdit c.1 c.2 none))

/-- the final progress event: empty edits, `done: true`. -/
def doneStep (uri : URI) : Step := .progress (.textEdit uri [] (some true))

/-- the single code block passed to `mapCode`. -/
def requestCodeBlocks (parameters : EditToolParams) : List CodeBlock :=
  [{ code := parameters.code, resource := URI.file parameters.filePath,
     markdownBeforeBlock := parameters.explanation }]

/-- the message of the error thrown when the invocation has no context. -/
def contextErrorMsg : String := "toolInvocationToken is required for this tool"

/-- the message of the error thrown when the target is outside the
workspace. -/
def outsideErrorMsg (filePath : String) : String :=
  "File " ++ filePath ++
  " can\x27t be edited because it\x27s not inside the current workspace"

/-- the message of the error thrown when the target is ignored. -/
def ignoredErrorMsg (filePath : String) : String :=
  "File " ++ filePath ++
  " can\x27t be edited because it is configured to be ignored by Copilot"

/-- the message of the error thrown when there is no current editing
session with the model session id. -/
def sessionMismatchMsg : String := "This tool must be called from within an editing session"

/-- the TypeError raised by dereferencing the absent session. -/
def sessionCrashMsg : String := "TypeError: session is undefined"

/-- the TypeError raised by using the absent last request. -/
def requestCrashMsg : String := "TypeError: last request is undefined"

/-- the constant result returned by every completing invocation. -/
def okResult : IToolResult :=
  { content := [{ kind := "text", value := "The file was edited successfully" }] }

/-- the trace accumulated when the editing-session check is reached:
the three validation service reads, the three content progress events,
and the read of the current editing session. -/
def preTrace (env : Env) (inv : IToolInvocation) (tok : CancellationToken)
    (ctx : ToolInvocationContext) : List Step :=
  validationSteps (URI.file inv.parameters.filePath) tok ctx.sessionId ++
  contentSteps (URI.file inv.parameters.filePath) inv.parameters.code ++
  [.currentEditingSessionRead env.currentEditingSession]

/-- the trace accumulated once `mapCode` has returned: `preTrace`, the
`mapCode` call, the forwarded sink events, and the final done event. -/
def baseTrace (env : Env) (inv : IToolInvocation) (tok : CancellationToken)
    (ctx : ToolInvocationContext) : List Step :=
  preTrace env inv tok ctx ++
  [.mapCodeCall (requestCodeBlocks inv.parameters) tok] ++
  sinkSteps (env.mapCode (requestCodeBlocks inv.parameters) tok).callbacks ++
  [doneStep (URI.file inv.parameters.filePath)]

/-- embedding of `EditTool.invoke`. It follows the source line by line:
context check, workspace check, ignore check, session lookup and last
request dereference, three content progress events, editing-session check,
`mapCode` with a single code block and the forwarding edit sink, the final
`textEdit` done event, the mapper error check, the awaited autorun
condition, the save and the constant result. The TypeScript non-null
dereferences on the session and the last request are modelled as `crash`
outcomes, since an absent value there is dereferenced without a guard. -/
def invoke (env : Env) (invocation : IToolInvocation) (token : CancellationToken) :
    Outcome × List Step :=
  match invocation.context with
  | none => (.error contextErrorMsg, [])
  | some ctx =>
    let parameters := invocation.parameters
    let uri := URI.file parameters.filePath
    if ¬ env.isInsideWorkspace uri then
      (.error (outsideErrorMsg parameters.filePath), [.isInsideWorkspaceCall uri])
    else if env.fileIsIgnored uri token then
      (.error (ignoredErrorMsg parameters.filePath),
       [.isInsideWorkspaceCall uri, .fileIsIgnoredCall uri token])
    else
      match env.getSession ctx.sessionId with
      | none => (.crash sessionCrashMsg, validationSteps uri token ctx.sessionId)
      | some model =>
        match model.requests.getLast? with
        | none => (.crash requestCrashMsg, validationSteps uri token ctx.sessionId)
        | some _request =>
          if env.currentEditingSession ≠ some model.sessionId then
            (.error sessionMismatchMsg, preTrace env invocation token ctx)
          else
            let mc := env.mapCode (requestCodeBlocks parameters) token
            match truthyErrorMessage mc.result with
            | some msg => (.error msg, baseTrace env invocation token ctx)
            | none =>
              match firstResolveIndex uri env.obsStates with
              | none => (.pending, baseTrace env invocation token ctx)
              | some n =>
                (.ok okResult,
                 baseTrace env invocation token ctx ++ [.awaitResolved n, .saveCall uri])

/-- whether a step is a progress event appended to the chat model. -/
def Step.isProgress : Step → Bool
  | .progress _ => true
  | _ => false

/-- the cancellation token a step passes to a service, when its source
call signature takes one: only `fileIsIgnored(uri, token)` and
`mapCode(request, sink, token)` do; `save(uri)` and the autorun take
none. -/
def Step.tokenOf : Step → Option CancellationToken
  | .fileIsIgnoredCall _ t => some t
  | .mapCodeCall _ t => some t
  | _ => none

/-- whether a step is one of the three service reads of the validation
chain performed before any progress event (workspace membership, ignore
policy, session lookup). -/
def Step.isPrecheckCall : Step → Bool
  | .isInsideWorkspaceCall _ => true
  | .fileIsIgnoredCall _ _ => true
  | .getSessionCall _ => true
  | _ => false

/-- whether a step is a call into the ignored-files service. -/
def Step.isFileIsIgnoredCall : Step → Bool
  | .fileIsIgnoredCall _ _ => true
  | _ => false

/-- whether a step is a call into the code-mapper service. -/
def Step.isMapCodeCall : Step → Bool
  | .mapCodeCall _ _ => true
  | _ => false

/-- the progress events of a trace, in order. -/
def progressOf (t : List Step) : List ChatProgress :=
  t.filterMap fun s =>
    match s with
    | .progress p => some p
    | _ => none

/-! Embedding of `editToolData` and the `BuiltinToolsContribution`
constructor. `localize` resolves to its default string here. -/

def localize (_key : String) (dflt : String) : String := dflt

/-- one property of the JSON input schema. -/
structure SchemaProperty where
  name : String
  type : String
  description : String
deriving DecidableEq

/-- the JSON input schema of a tool. -/
structure InputSchema where
  type : String
  properties : List SchemaProperty
  required : List String
deriving DecidableEq

/-- the tool-data record, `IToolData` in the source. -/
structure IToolData where
  id : String
  tags : List String
  displayName : String
  modelDescription : String
  inputSchema : InputSchema
deriving DecidableEq

def codeInstructions : String :=
  "\nThe user is very smart and can understand how to apply your edits to their files, you just need to provide minimal hints.\nAvoid repeating existing code, instead use comments to represent regions of unchanged code. The user prefers that you are as concise as possible. For example:\n// ...existing code...\n\x7b changed code \x7d\n// ...existing code...\n\x7b changed code \x7d\n// ...existing code...\n\nHere is an example of how you should use format an edit to an existing Person class:\nclass Person \x7b\n\t// ...existing code...\n\tage: number;\n\t// ...existing code...\n\tgetAge() \x7b\n\t\treturn this.age;\n\t\x7d\n\x7d\n"

def editToolData : IToolData :=
  { id := "vscode_editFile"
    tags := ["vscode_editing"]
    displayName := localize "chat.tools.editFile" "Edit File"
    modelDescription := "Edit a file in the workspace. Use this tool once per file that needs to be modified, even if there are multiple changes for a file. Generate the \"explanation\" property first. " ++ codeInstructions
    inputSchema :=
      { type := "object"
        properties :=
          [{ name := "explanation", type := "string",
             description := "A short explanation of the edit being made. Can be the same as the explanation you showed to the user." },
           { name := "filePath", type := "string",
             description := "An absolute path to the file to edit" },
           { name := "code", type := "string",
             description := "The code change to apply to the file. " ++ codeInstructions }]
        required := ["explanation", "filePath", "code"] } }

/-- one registration performed against the `ILanguageModelToolsService`:
either a tool-data record or a tool implementation under a given id (the
implementation instance itself carries no data we need to track). -/
inductive Registration where
  | toolData (d : IToolData)
  | toolImplementation (id : String)
deriving DecidableEq

/-- the registrations performed by the `BuiltinToolsContribution`
constructor, in order: `registerToolData(editToolData)` then
`registerToolImplementation(editToolData.id, editTool)`. -/
def builtinToolsRegistrations : List Registration :=
  [.toolData editToolData, .toolImplementation editToolData.id]

/-! Concrete environments and invocations used to exercise the embedding
on closed inputs. -/

/-- a token with identity 0. -/
def tok0 : CancellationToken := ⟨0⟩

/-- an invocation with a context whose session id is "s1" and concrete
parameters. -/
def goodInv : IToolInvocation :=
  { context := some ⟨"s1"⟩
    parameters := { filePath := "/a.txt", explanation := "expl", code := "new code" } }

/-- an environment in which every check passes, the mapper issues one
`textEdit` callback and reports no error, and the first observable state
already satisfies the awaited condition. -/
def goodEnv : Env :=
  { isInsideWorkspace := fun _ => true
    fileIsIgnored := fun _ _ => false
    getSession := fun sid => some { sessionId := sid, requests := [⟨0⟩] }
    currentEditingSession := some "s1"
    mapCode := fun _ _ =>
      { callbacks := [(URI.file "/a.txt", [⟨"edit1"⟩])]
        result := some { errorMessage := none } }
    obsStates := [some { entries := [{ modifiedURI := URI.file "/a.txt",
                                       isCurrentlyBeingModified := false }] }] }

/-- like `goodEnv`, but the session id resolves to no session, so the
unguarded `as ChatModel` dereference fails. -/
def crashEnv : Env :=
  { goodEnv with getSession := fun _ => none }

/-- like `goodEnv`, but there is no current editing session, so the
editing-session check fails — after the three content progress events
were already appended. -/
def mismatchEnv : Env :=
  { goodEnv with currentEditingSession := none }

/-- like `goodEnv`, but the mapper reports a non-empty error message. -/
def mapperErrEnv : Env :=
  { goodEnv with
    mapCode := fun _ _ =>
      { callbacks := []
        result := some { errorMessage := some "mapper failed" } } }

/-! Helper lemmas shared by the claim theorems. -/

/-- exhaustive branch analysis of `invoke`: exactly one disjunct applies,
recording the guards that led to the branch and the branch result. -/
theorem invoke_cases (env : Env) (inv : IToolInvocation) (tok : CancellationToken) :
    (inv.context = none ∧ invoke env inv tok = (.error contextErrorMsg, []))
    ∨ ∃ ctx, inv.context = some ctx ∧
      ((env.isInsideWorkspace (URI.file inv.parameters.filePath) = false ∧
        invoke env inv tok = (.error (outsideErrorMsg inv.parameters.filePath),
          [.isInsideWorkspaceCall (URI.file inv.parameters.filePath)]))
      ∨ (env.isInsideWorkspace (URI.file inv.parameters.filePath) = true ∧
         env.fileIsIgnored (URI.file inv.parameters.filePath) tok = true ∧
         invoke env inv tok = (.error (ignoredErrorMsg inv.parameters.filePath),
           [.isInsideWorkspaceCall (URI.file inv.parameters.filePath),
            .fileIsIgnoredCall (URI.file inv.parameters.filePath) tok]))
      ∨ (env.isInsideWorkspace (URI.file inv.parameters.filePath) = true ∧
         env.fileIsIgnored (URI.file inv.parameters.filePath) tok = false ∧
         env.getSession ctx.sessionId = none ∧
         invoke env inv tok = (.crash sessionCrashMsg,
           validationSteps (URI.file inv.parameters.filePath) tok ctx.sessionId))
      ∨ (∃ model, env.isInsideWorkspace (URI.file inv.parameters.filePath) = true ∧
         env.fileIsIgnored (URI.file inv.parameters.filePath) tok = false ∧
         env.getSession ctx.sessionId = some model ∧
         model.requests.getLast? = none ∧
         invoke env inv tok = (.crash requestCrashMsg,
           validationSteps (URI.file inv.parameters.filePath) tok ctx.sessionId))
      ∨ (∃ model request, env.isInsideWorkspace (URI.file inv.parameters.filePath) = true ∧
         env.fileIsIgnored (URI.file inv.parameters.filePath) tok = false ∧
         env.getSession ctx.sessionId = some model ∧
         model.requests.getLast? = some request ∧
         env.currentEditingSession ≠ some model.sessionId ∧
         invoke env inv tok = (.error sessionMismatchMsg, preTrace env inv tok ctx))
      ∨ (∃ model request msg, env.isInsideWorkspace (URI.file inv.parameters.filePath) = true ∧
         env.fileIsIgnored (URI.file inv.parameters.filePath) tok = false ∧
         env.getSession ctx.sessionId = some model ∧
         model.requests.getLast? = some request ∧
         env.currentEditingSession = some model.sessionId ∧
         truthyErrorMessage (env.mapCode (requestCodeBlocks inv.parameters) tok).result = some msg ∧
         invoke env inv tok = (.error msg, baseTrace env inv tok ctx))
      ∨ (∃ model request, env.isInsideWorkspace (URI.file inv.parameters.filePath) = true ∧
         env.fileIsIgnored (URI.file inv.parameters.filePath) tok = false ∧
         env.getSession ctx.sessionId = some model ∧
         model.requests.getLast? = some request ∧
         env.currentEditingSession = some model.sessionId ∧
         truthyErrorMessage (env.mapCode (requestCodeBlocks inv.parameters) tok).result = none ∧
         firstResolveIndex (URI.file inv.parameters.filePath) env.obsStates = none ∧
         invoke env inv tok = (.pending, baseTrace env inv tok ctx))
      ∨ (∃ model request n, env.isInsideWorkspace (URI.file inv.parameters.filePath) = true ∧
         env.fileIsIgnored (URI.file inv.parameters.filePath) tok = false ∧
         env.getSession ctx.sessionId = some model ∧
         model.requests.getLast? = some request ∧
         env.currentEditingSession = some model.sessionId ∧
         truthyErrorMessage (env.mapCode (requestCodeBlocks inv.parameters) tok).result = none ∧
         firstResolveIndex (URI.file inv.parameters.filePath) env.obsStates = some n ∧
         invoke env inv tok = (.ok okResult,
           baseTrace env inv tok ctx ++
           [.awaitResolved n, .saveCall (URI.file inv.parameters.filePath)]))) := by
  rcases hc : inv.context with _ | ctx
  · exact Or.inl ⟨rfl, by unfold invoke; rw [hc]⟩
  · refine Or.inr ⟨ctx, rfl, ?_⟩
    rcases hw : env.isInsideWorkspace (URI.file inv.parameters.filePath) with _ | _
    · exact Or.inl ⟨rfl, by unfold invoke; rw [hc]; simp [hw]⟩
    · rcases hg : env.fileIsIgnored (URI.file inv.parameters.filePath) tok with _ | _
      · rcases hs : env.getSession ctx.sessionId with _ | model
        · exact Or.inr (Or.inr (Or.inl ⟨rfl, rfl, rfl,
            by unfold invoke; rw [hc]; simp [hw, hg, hs]⟩))
        · rcases hr : model.requests.getLast? with _ | request
          · exact Or.inr (Or.inr (Or.inr (Or.inl ⟨model, rfl, rfl, rfl, hr,
              by unfold invoke; rw [hc]; simp [hw, hg, hs, hr]⟩)))
          · by_cases hm : env.currentEditingSession = some model.sessionId
            · rcases ht : truthyErrorMessage (env.mapCode (requestCodeBlocks inv.parameters) tok).result with _ | msg
              · rcases hf : firstResolveIndex (URI.file inv.parameters.filePath) env.obsStates with _ | n
                · exact Or.inr (Or.inr (Or.inr (Or.inr (Or.inr (Or.inr (Or.inl
                    ⟨model, request, rfl, rfl, rfl, hr, hm, rfl, rfl,
                     by unfold invoke; rw [hc]; simp [hw, hg, hs, hr, hm, ht, hf]⟩))))))
                · exact Or.inr (Or.inr (Or.inr (Or.inr (Or.inr (Or.inr (Or.inr
                    ⟨model, request, n, rfl, rfl, rfl, hr, hm, rfl, rfl,
                     by unfold invoke; rw [hc]; simp [hw, hg, hs, hr, hm, ht, hf]⟩))))))
              · exact Or.inr (Or.inr (Or.inr (Or.inr (Or.inr (Or.inl
                  ⟨model, request, msg, rfl, rfl, rfl, hr, hm, rfl,
                   by unfold invoke; rw [hc]; simp [hw, hg, hs, hr, hm, ht]⟩)))))
            · exact Or.inr (Or.inr (Or.inr (Or.inr (Or.inl
                ⟨model, request, rfl, rfl, rfl, hr, hm,
                 by unfold invoke; rw [hc]; simp [hw, hg, hs, hr, hm]⟩))))
      · exact Or.inr (Or.inl ⟨rfl, rfl, by unfold invoke; rw [hc]; simp [hw, hg]⟩)

/-- inversion for a successful run: the result is the constant one and
the trace is the full success trace. -/
theorem invoke_ok_inversion (env : Env) (inv : IToolInvocation) (tok : CancellationToken)
    (r : IToolResult) (h : (invoke env inv tok).1 = Outcome.ok r) :
    r = okResult ∧
    ∃ ctx n, inv.context = some ctx ∧
      truthyErrorMessage ((env.mapCode (requestCodeBlocks inv.parameters) tok).result) = none ∧
      firstResolveIndex (URI.file inv.parameters.filePath) env.obsStates = some n ∧
      (invoke env inv tok).2 =
        baseTrace env inv tok ctx ++
        [.awaitResolved n, .saveCall (URI.file inv.parameters.filePath)] := by
  rcases invoke_cases env inv tok with ⟨hc, he⟩ | ⟨ctx, hctx, hcase⟩
  · rw [he] at h; simp at h
  · rcases hcase with ⟨hw, he⟩ | ⟨hw, hg, he⟩ | ⟨hw, hg, hs, he⟩ |
      ⟨model, hw, hg, hs, hr, he⟩ | ⟨model, request, hw, hg, hs, hr, hm, he⟩ |
      ⟨model, request, msg, hw, hg, hs, hr, hm, ht, he⟩ |
      ⟨model, request, hw, hg, hs, hr, hm, ht, hf, he⟩ |
      ⟨model, request, n, hw, hg, hs, hr, hm, ht, hf, he⟩ <;> rw [he] at h <;> simp at h
    exact ⟨h.symm, ctx, n, hctx, ht, hf, by rw [he]⟩

/-- the projection `progressOf` distributes over append. -/
theorem progressOf_append (a b : List Step) :
    progressOf (a ++ b) = progressOf a ++ progressOf b := by
  simp [progressOf, List.filterMap_append]

/-- the progress events of the sink trace are exactly the forwarded
`textEdit` events, in callback order. -/
theorem progressOf_sinkSteps (cbs : List (URI × List TextEdit)) :
    progressOf (sinkSteps cbs) = cbs.map (fun c => ChatProgress.textEdit c.1 c.2 none) := by
  induction cbs with
  | nil => rfl
  | cons c rest ih => simp [sinkSteps, progressOf] at ih ⊢; exact ih

/-- no save step occurs among the forwarded sink events. -/
theorem saveCall_not_mem_sinkSteps (u : URI) (cbs : List (URI × List TextEdit)) :
    Step.saveCall u ∉ sinkSteps cbs := by
  simp [sinkSteps, List.mem_map]

/-- the condition `awaitCondition` holds exactly when the state carries an entry for the
URI that is no longer being modified. -/
theorem awaitCondition_eq_true_iff (uri : URI) (st : Option EditingSessionState) :
    awaitCondition uri st = true ↔
    ∃ s e, st = some s ∧
      s.entries.find? (fun en => en.modifiedURI.toString == uri.toString) = some e ∧
      e.isCurrentlyBeingModified = false := by
  constructor
  · intro h
    rcases st with _ | s
    · simp [awaitCondition] at h
    · rcases hf : s.entries.find? (fun en => en.modifiedURI.toString == uri.toString) with _ | e
      · simp [awaitCondition, hf] at h
      · refine ⟨s, e, rfl, hf, ?_⟩
        simpa [awaitCondition, hf] using h
  · rintro ⟨s, e, rfl, hf, hb⟩
    simp [awaitCondition, hf, hb]

/-- specification of `firstResolveIndex`: it returns the first index whose
state satisfies the condition. -/
theorem firstResolveIndex_spec (uri : URI) (l : List (Option EditingSessionState)) (n : Nat)
    (h : firstResolveIndex uri l = some n) :
    (∃ st, l[n]? = some st ∧ awaitCondition uri st = true) ∧
    ∀ m, m < n → ∀ st, l[m]? = some st → awaitCondition uri st = false := by
  induction l generalizing n with
  | nil => simp [firstResolveIndex] at h
  | cons hd tl ih =>
    unfold firstResolveIndex at h
    by_cases hc : awaitCondition uri hd
    · rw [if_pos hc] at h
      obtain rfl : n = 0 := by simpa using h.symm
      exact ⟨⟨hd, by simp, hc⟩, by intro m hm; omega⟩
    · rw [if_neg hc] at h
      rcases Option.map_eq_some'.mp h with ⟨k, hk, rfl⟩
      obtain ⟨⟨st, hst, hcond⟩, hmin⟩ := ih k hk
      refine ⟨⟨st, by simpa using hst, hcond⟩, ?_⟩
      intro m hm st' hst'
      rcases m with _ | j
      · simp at hst'
        subst hst'
        exact Bool.eq_false_iff.mpr hc
      · exact hmin j (by omega) st' (by simpa using hst')

/-! Claim theorems. -/

/-- C8: the `BuiltinToolsContribution` constructor registers exactly one
tool: one tool-data record with id "vscode_editFile" whose input schema
marks "explanation", "filePath" and "code" as required string properties,
and one implementation under that same id, and nothing else. -/
theorem C8_registrations :
    builtinToolsRegistrations =
      [Registration.toolData editToolData,
       Registration.toolImplementation "vscode_editFile"] ∧
    editToolData.id = "vscode_editFile" ∧
    editToolData.inputSchema.type = "object" ∧
    editToolData.inputSchema.required = ["explanation", "filePath", "code"] ∧
    editToolData.inputSchema.properties.map (fun p => (p.name, p.type)) =
      [("explanation", "string"), ("filePath", "string"), ("code", "string")] :=
  ⟨rfl, rfl, rfl, rfl, rfl⟩

/-- C5: every invocation that returns a result (rather than throwing or
never resolving) returns the payload with exactly one content element,
of kind "text" and constant value "The file was edited successfully",
independent of the parameters. -/
theorem C5_constant_success_result (env : Env) (inv : IToolInvocation)
    (tok : CancellationToken) (r : IToolResult)
    (h : (invoke env inv tok).1 = Outcome.ok r) :
    r = { content := [{ kind := "text", value := "The file was edited successfully" }] } ∧
    r.content.length = 1 := by
  obtain ⟨hr, -⟩ := invoke_ok_inversion env inv tok r h
  subst hr
  exact ⟨rfl, rfl⟩

/-- witness for C5: a concrete run returning the constant payload. -/
theorem C5_constant_success_result_witness :
    (invoke goodEnv goodInv tok0).1 = Outcome.ok okResult ∧
    okResult = { content := [{ kind := "text", value := "The file was edited successfully" }] } ∧
    okResult.content.length = 1 :=
  ⟨by decide, C5_constant_success_result goodEnv goodInv tok0 okResult (by decide)⟩

/-- C1 counterexample: a concrete run in which none of the five
enumerated error cases holds — the context is present, the target is
inside the workspace and not ignored, the current editing session id
equals the invocation session id, and the mapper reports no error — yet
the run does not complete without throwing: the unguarded session
dereference raises a TypeError because `getSession` resolves to no
session. -/
theorem C1_counterexample :
    (invoke crashEnv goodInv tok0).1 = Outcome.crash sessionCrashMsg ∧
    goodInv.context = some ⟨"s1"⟩ ∧
    crashEnv.isInsideWorkspace (URI.file goodInv.parameters.filePath) = true ∧
    crashEnv.fileIsIgnored (URI.file goodInv.parameters.filePath) tok0 = false ∧
    crashEnv.currentEditingSession = some "s1" ∧
    truthyErrorMessage ((crashEnv.mapCode (requestCodeBlocks goodInv.parameters) tok0).result) = none :=
  ⟨rfl, rfl, rfl, rfl, rfl, rfl⟩

/-- C1 (amended): a generic `Error` is raised in exactly five cases —
missing context; target outside the workspace; target ignored; after the
session dereference succeeds, absent or mismatching current editing
session; mapper result with truthy error message. Runs outside these five
cases never raise a generic `Error` (though they may crash on the
unguarded dereference or never resolve). -/
theorem C1_amended_error_cases (env : Env) (inv : IToolInvocation) (tok : CancellationToken) :
    (∃ msg, (invoke env inv tok).1 = Outcome.error msg) ↔
    (inv.context = none ∨
     ∃ ctx, inv.context = some ctx ∧
       (env.isInsideWorkspace (URI.file inv.parameters.filePath) = false ∨
        (env.isInsideWorkspace (URI.file inv.parameters.filePath) = true ∧
         env.fileIsIgnored (URI.file inv.parameters.filePath) tok = true) ∨
        (env.isInsideWorkspace (URI.file inv.parameters.filePath) = true ∧
         env.fileIsIgnored (URI.file inv.parameters.filePath) tok = false ∧
         ∃ model request,
           env.getSession ctx.sessionId = some model ∧
           model.requests.getLast? = some request ∧
           (env.currentEditingSession ≠ some model.sessionId ∨
            (env.currentEditingSession = some model.sessionId ∧
             ∃ msg, truthyErrorMessage
               ((env.mapCode (requestCodeBlocks inv.parameters) tok).result) = some msg))))) := by
  constructor
  · rintro ⟨msg, h⟩
    rcases invoke_cases env inv tok with ⟨hc, he⟩ | ⟨ctx, hctx, hcase⟩
    · exact Or.inl hc
    · refine Or.inr ⟨ctx, hctx, ?_⟩
      rcases hcase with ⟨hw, he⟩ | ⟨hw, hg, he⟩ | ⟨hw, hg, hs, he⟩ |
        ⟨model, hw, hg, hs, hr, he⟩ | ⟨model, request, hw, hg, hs, hr, hm, he⟩ |
        ⟨model, request, m2, hw, hg, hs, hr, hm, ht, he⟩ |
        ⟨model, request, hw, hg, hs, hr, hm, ht, hf, he⟩ |
        ⟨model, request, n, hw, hg, hs, hr, hm, ht, hf, he⟩
      · exact Or.inl hw
      · exact Or.inr (Or.inl ⟨hw, hg⟩)
      · rw [he] at h; simp at h
      · rw [he] at h; simp at h
      · exact Or.inr (Or.inr ⟨hw, hg, model, request, hs, hr, Or.inl hm⟩)
      · exact Or.inr (Or.inr ⟨hw, hg, model, request, hs, hr, Or.inr ⟨hm, m2, ht⟩⟩)
      · rw [he] at h; simp at h
      · rw [he] at h; simp at h
  · intro hcond
    rcases hcond with hc | ⟨ctx, hctx, hcase⟩
    · exact ⟨contextErrorMsg, by unfold invoke; rw [hc]⟩
    · rcases hcase with hw | ⟨hw, hg⟩ | ⟨hw, hg, model, request, hs, hr, hrest⟩
      · exact ⟨outsideErrorMsg inv.parameters.filePath,
          by unfold invoke; rw [hctx]; simp [hw]⟩
      · exact ⟨ignoredErrorMsg inv.parameters.filePath,
          by unfold invoke; rw [hctx]; simp [hw, hg]⟩
      · rcases hrest with hm | ⟨hm, msg, ht⟩
        · exact ⟨sessionMismatchMsg,
            by unfold invoke; rw [hctx]; simp [hw, hg, hs, hr, hm]⟩
        · exact ⟨msg, by unfold invoke; rw [hctx]; simp [hw, hg, hs, hr, hm, ht]⟩

/-- C9: the TypeError branch of the unguarded session / last-request
dereference is taken exactly when the validation chain passes but the
session id resolves to no session or to a session with no requests; in
particular it is unreachable whenever the session resolves and holds at
least one request. -/
theorem C9_unguarded_dereference (env : Env) (inv : IToolInvocation) (tok : CancellationToken) :
    (∃ w, (invoke env inv tok).1 = Outcome.crash w) ↔
    (∃ ctx, inv.context = some ctx ∧
      env.isInsideWorkspace (URI.file inv.parameters.filePath) = true ∧
      env.fileIsIgnored (URI.file inv.parameters.filePath) tok = false ∧
      (env.getSession ctx.sessionId = none ∨
       ∃ model, env.getSession ctx.sessionId = some model ∧
         model.requests.getLast? = none)) := by
  constructor
  · rintro ⟨w, h⟩
    rcases invoke_cases env inv tok with ⟨hc, he⟩ | ⟨ctx, hctx, hcase⟩
    · rw [he] at h; simp at h
    · rcases hcase with ⟨hw, he⟩ | ⟨hw, hg, he⟩ | ⟨hw, hg, hs, he⟩ |
        ⟨model, hw, hg, hs, hr, he⟩ | ⟨model, request, hw, hg, hs, hr, hm, he⟩ |
        ⟨model, request, m2, hw, hg, hs, hr, hm, ht, he⟩ |
        ⟨model, request, hw, hg, hs, hr, hm, ht, hf, he⟩ |
        ⟨model, request, n, hw, hg, hs, hr, hm, ht, hf, he⟩ <;> rw [he] at h <;> simp at h
      · exact ⟨ctx, hctx, hw, hg, Or.inl hs⟩
      · exact ⟨ctx, hctx, hw, hg, Or.inr ⟨model, hs, hr⟩⟩
  · rintro ⟨ctx, hctx, hw, hg, hs | ⟨model, hs, hr⟩⟩
    · exact ⟨sessionCrashMsg, by unfold invoke; rw [hctx]; simp [hw, hg, hs]⟩
    · exact ⟨requestCrashMsg, by unfold invoke; rw [hctx]; simp [hw, hg, hs, hr]⟩

/-- C10: on the mapper-error path the invocation throws the mapper
message, but only after appending the final `textEdit` done progress
event — the transcript is mutated on this error path — and the save is
never called. -/
theorem C10_mapper_error_transcript (env : Env) (inv : IToolInvocation)
    (tok : CancellationToken) (ctx : ToolInvocationContext) (model : ChatModel)
    (request : ChatRequestModel) (msg : String)
    (h1 : inv.context = some ctx)
    (h2 : env.isInsideWorkspace (URI.file inv.parameters.filePath) = true)
    (h3 : env.fileIsIgnored (URI.file inv.parameters.filePath) tok = false)
    (h4 : env.getSession ctx.sessionId = some model)
    (h5 : model.requests.getLast? = some request)
    (h6 : env.currentEditingSession = some model.sessionId)
    (h7 : truthyErrorMessage ((env.mapCode (requestCodeBlocks inv.parameters) tok).result) = some msg) :
    (invoke env inv tok).1 = Outcome.error msg ∧
    (∃ t1, (invoke env inv tok).2 =
      t1 ++ [Step.progress (ChatProgress.textEdit (URI.file inv.parameters.filePath) [] (some true))]) ∧
    ∀ u, Step.saveCall u ∉ (invoke env inv tok).2 := by
  have he : invoke env inv tok = (.error msg, baseTrace env inv tok ctx) := by
    unfold invoke; rw [h1]; simp [h2, h3, h4, h5, h6, h7]
  refine ⟨by rw [he], ?_, ?_⟩
  · refine ⟨preTrace env inv tok ctx ++
      [.mapCodeCall (requestCodeBlocks inv.parameters) tok] ++
      sinkSteps ((env.mapCode (requestCodeBlocks inv.parameters) tok).callbacks), ?_⟩
    rw [he]
    simp [baseTrace, doneStep, List.append_assoc]
  · intro u
    rw [he]
    simp [baseTrace, preTrace, validationSteps, contentSteps, doneStep, sinkSteps,
      List.mem_append, List.mem_map]

/-- witness for C10 at a concrete mapper-error run. -/
theorem C10_mapper_error_transcript_witness :
    (invoke mapperErrEnv goodInv tok0).1 = Outcome.error "mapper failed" ∧
    (∃ t1, (invoke mapperErrEnv goodInv tok0).2 =
      t1 ++ [Step.progress (ChatProgress.textEdit (URI.file "/a.txt") [] (some true))]) ∧
    ∀ u, Step.saveCall u ∉ (invoke mapperErrEnv goodInv tok0).2 :=
  C10_mapper_error_transcript mapperErrEnv goodInv tok0 ⟨"s1"⟩ ⟨"s1", [⟨0⟩]⟩ ⟨0⟩ "mapper failed"
    (by decide) (by decide) (by decide) (by decide) (by decide) (by decide) (by decide)

/-- C3: in every successful invocation the progress events occur in the
fixed order — opening fence, codeblock URI, code with closing fence, the
forwarded mapper edits, and the final done event — and the save call
comes after all of them. -/
theorem C3_progress_order (env : Env) (inv : IToolInvocation) (tok : CancellationToken)
    (r : IToolResult) (h : (invoke env inv tok).1 = Outcome.ok r) :
    progressOf (invoke env inv tok).2 =
      [ChatProgress.markdownContent "\n````\n",
       ChatProgress.codeblockUri (URI.file inv.parameters.filePath),
       ChatProgress.markdownContent (inv.parameters.code ++ "\n````\n")] ++
      ((env.mapCode (requestCodeBlocks inv.parameters) tok).callbacks.map
        (fun c => ChatProgress.textEdit c.1 c.2 none)) ++
      [ChatProgress.textEdit (URI.file inv.parameters.filePath) [] (some true)] ∧
    ∃ t1 n, (invoke env inv tok).2 =
      t1 ++ [Step.awaitResolved n, Step.saveCall (URI.file inv.parameters.filePath)] ∧
      ∀ u, Step.saveCall u ∉ t1 := by
  obtain ⟨-, ctx, n, hctx, ht, hf, htr⟩ := invoke_ok_inversion env inv tok r h
  constructor
  · rw [htr, progressOf_append]
    simp [baseTrace, preTrace, validationSteps, contentSteps, doneStep,
      progressOf_append, progressOf_sinkSteps, progressOf]
    exact progressOf_sinkSteps _
  · refine ⟨baseTrace env inv tok ctx, n, htr, ?_⟩
    intro u
    simp [baseTrace, preTrace, validationSteps, contentSteps, doneStep, sinkSteps,
      List.mem_append, List.mem_map]

/-- witness for C3 at a concrete successful run. -/
theorem C3_progress_order_witness :
    progressOf (invoke goodEnv goodInv tok0).2 =
      [ChatProgress.markdownContent "\n````\n",
       ChatProgress.codeblockUri (URI.file "/a.txt"),
       ChatProgress.markdownContent ("new code" ++ "\n````\n")] ++
      [ChatProgress.textEdit (URI.file "/a.txt") [⟨"edit1"⟩] none] ++
      [ChatProgress.textEdit (URI.file "/a.txt") [] (some true)] ∧
    ∃ t1 n, (invoke goodEnv goodInv tok0).2 =
      t1 ++ [Step.awaitResolved n, Step.saveCall (URI.file "/a.txt")] ∧
      ∀ u, Step.saveCall u ∉ t1 :=
  C3_progress_order goodEnv goodInv tok0 okResult (by decide)

/-- C4: the save is called only after the awaited condition holds — at
the resolving observable state the current editing session has an entry
whose `modifiedURI` equals the target URI and whose
`isCurrentlyBeingModified` reads false, while at every earlier observed
state the condition was false — and the save follows the await in the
trace. -/
theorem C4_save_after_await (env : Env) (inv : IToolInvocation) (tok : CancellationToken)
    (r : IToolResult) (h : (invoke env inv tok).1 = Outcome.ok r) :
    ∃ n sess e t1,
      env.obsStates[n]? = some (some sess) ∧
      sess.entries.find?
        (fun en => en.modifiedURI.toString == (URI.file inv.parameters.filePath).toString) = some e ∧
      e.isCurrentlyBeingModified = false ∧
      (∀ m, m < n → ∀ st, env.obsStates[m]? = some st →
        awaitCondition (URI.file inv.parameters.filePath) st = false) ∧
      (invoke env inv tok).2 =
        t1 ++ [Step.awaitResolved n, Step.saveCall (URI.file inv.parameters.filePath)] ∧
      ∀ u, Step.saveCall u ∉ t1 := by
  obtain ⟨-, ctx, n, hctx, ht, hf, htr⟩ := invoke_ok_inversion env inv tok r h
  obtain ⟨⟨st, hst, hcond⟩, hmin⟩ := firstResolveIndex_spec _ _ _ hf
  obtain ⟨sess, e, rfl, hfind, hb⟩ := (awaitCondition_eq_true_iff _ _).mp hcond
  refine ⟨n, sess, e, baseTrace env inv tok ctx, hst, hfind, hb, hmin, htr, ?_⟩
  intro u
  simp [baseTrace, preTrace, validationSteps, contentSteps, doneStep, sinkSteps,
    List.mem_append, List.mem_map]

/-- witness for C4 at a concrete successful run. -/
theorem C4_save_after_await_witness :
    ∃ n sess e t1,
      goodEnv.obsStates[n]? = some (some sess) ∧
      sess.entries.find?
        (fun en => en.modifiedURI.toString == (URI.file "/a.txt").toString) = some e ∧
      e.isCurrentlyBeingModified = false ∧
      (∀ m, m < n → ∀ st, goodEnv.obsStates[m]? = some st →
        awaitCondition (URI.file "/a.txt") st = false) ∧
      (invoke goodEnv goodInv tok0).2 =
        t1 ++ [Step.awaitResolved n, Step.saveCall (URI.file "/a.txt")] ∧
      ∀ u, Step.saveCall u ∉ t1 :=
  C4_save_after_await goodEnv goodInv tok0 okResult (by decide)

/-- no step of the validation chain is a progress event. -/
theorem not_progress_validationSteps (u : URI) (tk : CancellationToken) (sid : String) :
    ∀ s ∈ validationSteps u tk sid, Step.isProgress s = false := by
  simp [validationSteps, Step.isProgress]

/-- no content progress event is a precheck service read. -/
theorem not_precheck_contentSteps (u : URI) (c : String) :
    ∀ s ∈ contentSteps u c, Step.isPrecheckCall s = false := by
  simp [contentSteps, Step.isPrecheckCall]

/-- no forwarded sink event is a precheck service read. -/
theorem not_precheck_sinkSteps (cbs : List (URI × List TextEdit)) :
    ∀ s ∈ sinkSteps cbs, Step.isPrecheckCall s = false := by
  intro s hs
  simp only [sinkSteps] at hs
  rcases List.mem_map.mp hs with ⟨c, -, rfl⟩
  rfl

/-- no forwarded sink event carries a token. -/
theorem tokenOf_sinkSteps (cbs : List (URI × List TextEdit)) :
    ∀ s ∈ sinkSteps cbs, Step.tokenOf s = none := by
  intro s hs
  simp only [sinkSteps] at hs
  rcases List.mem_map.mp hs with ⟨c, -, rfl⟩
  rfl

/-- filtering the sink events for token-carrying steps yields nothing. -/
theorem tokenFilter_sinkSteps (cbs : List (URI × List TextEdit)) :
    (sinkSteps cbs).filter (fun x => (Step.tokenOf x).isSome) = [] := by
  induction cbs with
  | nil => rfl
  | cons c rest ih =>
    simp [sinkSteps, List.filter_cons, Step.tokenOf] at ih ⊢
    exact ih

/-- C2 counterexample: in a concrete run the first progress event sits at
trace position 3 while the editing-session validation read sits at
position 6 — the validation happens after progress events were appended —
and the run then fails that validation. So it is not the case that all
precondition validations precede the first progress event. -/
theorem C2_counterexample :
    (invoke mismatchEnv goodInv tok0).2[3]? =
      some (Step.progress (ChatProgress.markdownContent "\n````\n")) ∧
    (invoke mismatchEnv goodInv tok0).2[6]? =
      some (Step.currentEditingSessionRead none) ∧
    (invoke mismatchEnv goodInv tok0).1 = Outcome.error sessionMismatchMsg :=
  ⟨rfl, rfl, rfl⟩

/-- C2 (amended): the context, workspace and ignore validations (and the
session lookup) all precede every progress event: the trace splits into a
progress-free prefix and a precheck-free suffix. The editing-session
validation, however, is performed only after the three content progress
events: whenever the mapper is reached, the trace begins with the three
precheck reads, then the three content events, then the editing-session
read immediately followed by the mapper call. -/
theorem C2_amended_validation_order (env : Env) (inv : IToolInvocation) (tok : CancellationToken) :
    (∃ t1 t2, (invoke env inv tok).2 = t1 ++ t2 ∧
      (∀ s ∈ t1, Step.isProgress s = false) ∧
      (∀ s ∈ t2, Step.isPrecheckCall s = false)) ∧
    (∀ bs tk, Step.mapCodeCall bs tk ∈ (invoke env inv tok).2 →
      ∃ sid t2, (invoke env inv tok).2 =
        validationSteps (URI.file inv.parameters.filePath) tok sid ++
        contentSteps (URI.file inv.parameters.filePath) inv.parameters.code ++
        ([Step.currentEditingSessionRead env.currentEditingSession,
          Step.mapCodeCall (requestCodeBlocks inv.parameters) tok] ++ t2)) := by
  rcases invoke_cases env inv tok with ⟨hc, he⟩ | ⟨ctx, hctx, hcase⟩
  · refine ⟨⟨[], [], by simp [he], by simp, by simp⟩, ?_⟩
    intro bs tk hmem; rw [he] at hmem; simp at hmem
  · rcases hcase with ⟨hw, he⟩ | ⟨hw, hg, he⟩ | ⟨hw, hg, hs, he⟩ |
      ⟨model, hw, hg, hs, hr, he⟩ | ⟨model, request, hw, hg, hs, hr, hm, he⟩ |
      ⟨model, request, m2, hw, hg, hs, hr, hm, ht, he⟩ |
      ⟨model, request, hw, hg, hs, hr, hm, ht, hf, he⟩ |
      ⟨model, request, n, hw, hg, hs, hr, hm, ht, hf, he⟩
    · refine ⟨⟨[Step.isInsideWorkspaceCall (URI.file inv.parameters.filePath)], [],
        by rw [he]; simp, by simp [Step.isProgress], by simp⟩, ?_⟩
      intro bs tk hmem; rw [he] at hmem; simp at hmem
    · refine ⟨⟨[Step.isInsideWorkspaceCall (URI.file inv.parameters.filePath),
        Step.fileIsIgnoredCall (URI.file inv.parameters.filePath) tok], [],
        by rw [he]; simp, by simp [Step.isProgress], by simp⟩, ?_⟩
      intro bs tk hmem; rw [he] at hmem; simp at hmem
    · refine ⟨⟨validationSteps (URI.file inv.parameters.filePath) tok ctx.sessionId, [],
        by rw [he]; simp, not_progress_validationSteps _ _ _, by simp⟩, ?_⟩
      intro bs tk hmem; rw [he] at hmem; simp [validationSteps] at hmem
    · refine ⟨⟨validationSteps (URI.file inv.parameters.filePath) tok ctx.sessionId, [],
        by rw [he]; simp, not_progress_validationSteps _ _ _, by simp⟩, ?_⟩
      intro bs tk hmem; rw [he] at hmem; simp [validationSteps] at hmem
    · refine ⟨⟨validationSteps (URI.file inv.parameters.filePath) tok ctx.sessionId,
        contentSteps (URI.file inv.parameters.filePath) inv.parameters.code ++
          [Step.currentEditingSessionRead env.currentEditingSession],
        by rw [he]; simp [preTrace, List.append_assoc],
        not_progress_validationSteps _ _ _, ?_⟩, ?_⟩
      · intro s hs'
        rcases List.mem_append.mp hs' with h | h
        · exact not_precheck_contentSteps _ _ s h
        · simp at h; subst h; rfl
      · intro bs tk hmem; rw [he] at hmem
        simp [preTrace, validationSteps, contentSteps] at hmem
    · refine ⟨⟨validationSteps (URI.file inv.parameters.filePath) tok ctx.sessionId,
        contentSteps (URI.file inv.parameters.filePath) inv.parameters.code ++
          ([Step.currentEditingSessionRead env.currentEditingSession,
            Step.mapCodeCall (requestCodeBlocks inv.parameters) tok] ++
           sinkSteps ((env.mapCode (requestCodeBlocks inv.parameters) tok).callbacks) ++
           [doneStep (URI.file inv.parameters.filePath)]),
        by rw [he]; simp [baseTrace, preTrace, List.append_assoc],
        not_progress_validationSteps _ _ _, ?_⟩, ?_⟩
      · intro s hs'
        rcases List.mem_append.mp hs' with h | h
        · exact not_precheck_contentSteps _ _ s h
        · rcases List.mem_append.mp h with h' | h'
          · rcases List.mem_append.mp h' with h'' | h''
            · simp at h''; rcases h'' with rfl | rfl <;> rfl
            · exact not_precheck_sinkSteps _ s h''
          · simp at h'; subst h'; rfl
      · intro bs tk hmem
        refine ⟨ctx.sessionId,
          sinkSteps ((env.mapCode (requestCodeBlocks inv.parameters) tok).callbacks) ++
            [doneStep (URI.file inv.parameters.filePath)], ?_⟩
        rw [he]; simp [baseTrace, preTrace, List.append_assoc]
    · refine ⟨⟨validationSteps (URI.file inv.parameters.filePath) tok ctx.sessionId,
        contentSteps (URI.file inv.parameters.filePath) inv.parameters.code ++
          ([Step.currentEditingSessionRead env.currentEditingSession,
            Step.mapCodeCall (requestCodeBlocks inv.parameters) tok] ++
           sinkSteps ((env.mapCode (requestCodeBlocks inv.parameters) tok).callbacks) ++
           [doneStep (URI.file inv.parameters.filePath)]),
        by rw [he]; simp [baseTrace, preTrace, List.append_assoc],
        not_progress_validationSteps _ _ _, ?_⟩, ?_⟩
      · intro s hs'
        rcases List.mem_append.mp hs' with h | h
        · exact not_precheck_contentSteps _ _ s h
        · rcases List.mem_append.mp h with h' | h'
          · rcases List.mem_append.mp h' with h'' | h''
            · simp at h''; rcases h'' with rfl | rfl <;> rfl
            · exact not_precheck_sinkSteps _ s h''
          · simp at h'; subst h'; rfl
      · intro bs tk hmem
        refine ⟨ctx.sessionId,
          sinkSteps ((env.mapCode (requestCodeBlocks inv.parameters) tok).callbacks) ++
            [doneStep (URI.file inv.parameters.filePath)], ?_⟩
        rw [he]; simp [baseTrace, preTrace, List.append_assoc]
    · refine ⟨⟨validationSteps (URI.file inv.parameters.filePath) tok ctx.sessionId,
        contentSteps (URI.file inv.parameters.filePath) inv.parameters.code ++
          ([Step.currentEditingSessionRead env.currentEditingSession,
            Step.mapCodeCall (requestCodeBlocks inv.parameters) tok] ++
           sinkSteps ((env.mapCode (requestCodeBlocks inv.parameters) tok).callbacks) ++
           ([doneStep (URI.file inv.parameters.filePath)] ++
            [Step.awaitResolved n, Step.saveCall (URI.file inv.parameters.filePath)])),
        by rw [he]; simp [baseTrace, preTrace, List.append_assoc],
        not_progress_validationSteps _ _ _, ?_⟩, ?_⟩
      · intro s hs'
        rcases List.mem_append.mp hs' with h | h
        · exact not_precheck_contentSteps _ _ s h
        · rcases List.mem_append.mp h with h' | h'
          · rcases List.mem_append.mp h' with h'' | h''
            · simp at h''; rcases h'' with rfl | rfl <;> rfl
            · exact not_precheck_sinkSteps _ s h''
          · simp at h'; rcases h' with rfl | rfl | rfl <;> rfl
      · intro bs tk hmem
        refine ⟨ctx.sessionId,
          sinkSteps ((env.mapCode (requestCodeBlocks inv.parameters) tok).callbacks) ++
            ([doneStep (URI.file inv.parameters.filePath)] ++
             [Step.awaitResolved n, Step.saveCall (URI.file inv.parameters.filePath)]), ?_⟩
        rw [he]; simp [baseTrace, preTrace, List.append_assoc]

/-- witness for C2 (amended), discharging the mapper-reached hypothesis
at a concrete run. -/
theorem C2_amended_validation_order_witness :
    ∃ sid t2, (invoke goodEnv goodInv tok0).2 =
      validationSteps (URI.file "/a.txt") tok0 sid ++
      contentSteps (URI.file "/a.txt") "new code" ++
      ([Step.currentEditingSessionRead (some "s1"),
        Step.mapCodeCall (requestCodeBlocks goodInv.parameters) tok0] ++ t2) :=
  (C2_amended_validation_order goodEnv goodInv tok0).2
    (requestCodeBlocks goodInv.parameters) tok0 (by decide)

/-- C6: whenever `mapCode` is called it is called with exactly one code
block — code, resource `URI.file(filePath)`, and `markdownBeforeBlock`
taken from the parameters — together with the caller token; each
`textEdit(target, edits)` sink callback is forwarded as a `textEdit`
progress event right after the call, followed by the final done event. -/
theorem C6_mapper_arguments (env : Env) (inv : IToolInvocation) (tok : CancellationToken)
    (bs : List CodeBlock) (tk : CancellationToken)
    (h : Step.mapCodeCall bs tk ∈ (invoke env inv tok).2) :
    bs = [{ code := inv.parameters.code,
            resource := URI.file inv.parameters.filePath,
            markdownBeforeBlock := inv.parameters.explanation }] ∧
    tk = tok ∧
    ∃ t1 t2, (invoke env inv tok).2 =
      t1 ++ ([Step.mapCodeCall bs tk] ++
        ((env.mapCode bs tk).callbacks.map
          (fun c => Step.progress (ChatProgress.textEdit c.1 c.2 none))) ++
        [Step.progress (ChatProgress.textEdit (URI.file inv.parameters.filePath) [] (some true))]) ++
      t2 := by
  rcases invoke_cases env inv tok with ⟨hc, he⟩ | ⟨ctx, hctx, hcase⟩
  · rw [he] at h; simp at h
  · rcases hcase with ⟨hw, he⟩ | ⟨hw, hg, he⟩ | ⟨hw, hg, hs, he⟩ |
      ⟨model, hw, hg, hs, hr, he⟩ | ⟨model, request, hw, hg, hs, hr, hm, he⟩ |
      ⟨model, request, m2, hw, hg, hs, hr, hm, ht, he⟩ |
      ⟨model, request, hw, hg, hs, hr, hm, ht, hf, he⟩ |
      ⟨model, request, n, hw, hg, hs, hr, hm, ht, hf, he⟩
    · rw [he] at h; simp at h
    · rw [he] at h; simp at h
    · rw [he] at h; simp [validationSteps] at h
    · rw [he] at h; simp [validationSteps] at h
    · rw [he] at h; simp [preTrace, validationSteps, contentSteps] at h
    · rw [he] at h
      simp [baseTrace, preTrace, validationSteps, contentSteps, sinkSteps, doneStep] at h
      obtain ⟨h1, h2⟩ := h
      refine ⟨h1, h2, preTrace env inv tok ctx, [], ?_⟩
      rw [he, h1, h2]
      simp [baseTrace, sinkSteps, doneStep, List.append_assoc]
    · rw [he] at h
      simp [baseTrace, preTrace, validationSteps, contentSteps, sinkSteps, doneStep] at h
      obtain ⟨h1, h2⟩ := h
      refine ⟨h1, h2, preTrace env inv tok ctx, [], ?_⟩
      rw [he, h1, h2]
      simp [baseTrace, sinkSteps, doneStep, List.append_assoc]
    · rw [he] at h
      simp [baseTrace, preTrace, validationSteps, contentSteps, sinkSteps, doneStep] at h
      obtain ⟨h1, h2⟩ := h
      refine ⟨h1, h2, preTrace env inv tok ctx,
        [Step.awaitResolved n, Step.saveCall (URI.file inv.parameters.filePath)], ?_⟩
      rw [he, h1, h2]
      simp [baseTrace, sinkSteps, doneStep, List.append_assoc]

/-- witness for C6 at a concrete run reaching the mapper. -/
theorem C6_mapper_arguments_witness :
    requestCodeBlocks goodInv.parameters =
      [{ code := "new code", resource := URI.file "/a.txt",
         markdownBeforeBlock := "expl" }] ∧
    tok0 = tok0 ∧
    ∃ t1 t2, (invoke goodEnv goodInv tok0).2 =
      t1 ++ ([Step.mapCodeCall (requestCodeBlocks goodInv.parameters) tok0] ++
        ((goodEnv.mapCode (requestCodeBlocks goodInv.parameters) tok0).callbacks.map
          (fun c => Step.progress (ChatProgress.textEdit c.1 c.2 none))) ++
        [Step.progress (ChatProgress.textEdit (URI.file "/a.txt") [] (some true))]) ++ t2 :=
  C6_mapper_arguments goodEnv goodInv tok0 (requestCodeBlocks goodInv.parameters) tok0 (by decide)

/-- C7: every step of every trace that passes a token passes the caller
token, and only the ignored-files check and the mapper call do so; in a
run that reaches the mapper there are exactly two token-carrying calls;
the save call and the awaited condition carry no token at all. -/
theorem C7_token_forwarding (env : Env) (inv : IToolInvocation) (tok : CancellationToken) :
    (∀ s ∈ (invoke env inv tok).2, ∀ tk, Step.tokenOf s = some tk →
      tk = tok ∧ (Step.isFileIsIgnoredCall s = true ∨ Step.isMapCodeCall s = true)) ∧
    (∀ bs tk, Step.mapCodeCall bs tk ∈ (invoke env inv tok).2 →
      (((invoke env inv tok).2).filter (fun x => (Step.tokenOf x).isSome)).length = 2) ∧
    (∀ u, Step.tokenOf (Step.saveCall u) = none) ∧
    (∀ i, Step.tokenOf (Step.awaitResolved i) = none) := by
  refine ⟨?_, ?_, fun u => rfl, fun i => rfl⟩
  · rcases invoke_cases env inv tok with ⟨hc, he⟩ | ⟨ctx, hctx, hcase⟩
    · rw [he]; intro s hs; simp at hs
    · rcases hcase with ⟨hw, he⟩ | ⟨hw, hg, he⟩ | ⟨hw, hg, hs, he⟩ |
        ⟨model, hw, hg, hs, hr, he⟩ | ⟨model, request, hw, hg, hs, hr, hm, he⟩ |
        ⟨model, request, m2, hw, hg, hs, hr, hm, ht, he⟩ |
        ⟨model, request, hw, hg, hs, hr, hm, ht, hf, he⟩ |
        ⟨model, request, n, hw, hg, hs, hr, hm, ht, hf, he⟩ <;>
        rw [he] <;> intro s hs tk htk <;> cases s <;>
        simp_all [baseTrace, preTrace, validationSteps, contentSteps, sinkSteps, doneStep,
          Step.tokenOf, Step.isFileIsIgnoredCall, Step.isMapCodeCall]
  · intro bs tk hmem
    rcases invoke_cases env inv tok with ⟨hc, he⟩ | ⟨ctx, hctx, hcase⟩
    · rw [he] at hmem; simp at hmem
    · rcases hcase with ⟨hw, he⟩ | ⟨hw, hg, he⟩ | ⟨hw, hg, hs, he⟩ |
        ⟨model, hw, hg, hs, hr, he⟩ | ⟨model, request, hw, hg, hs, hr, hm, he⟩ |
        ⟨model, request, m2, hw, hg, hs, hr, hm, ht, he⟩ |
        ⟨model, request, hw, hg, hs, hr, hm, ht, hf, he⟩ |
        ⟨model, request, n, hw, hg, hs, hr, hm, ht, hf, he⟩
      · rw [he] at hmem; simp at hmem
      · rw [he] at hmem; simp at hmem
      · rw [he] at hmem; simp [validationSteps] at hmem
      · rw [he] at hmem; simp [validationSteps] at hmem
      · rw [he] at hmem; simp [preTrace, validationSteps, contentSteps] at hmem
      · rw [he]
        simp [baseTrace, preTrace, validationSteps, contentSteps, doneStep,
          List.filter_append, tokenFilter_sinkSteps, Step.tokenOf, List.filter_cons]
        exact tokenOf_sinkSteps _
      · rw [he]
        simp [baseTrace, preTrace, validationSteps, contentSteps, doneStep,
          List.filter_append, tokenFilter_sinkSteps, Step.tokenOf, List.filter_cons]
        exact tokenOf_sinkSteps _
      · rw [he]
        simp [baseTrace, preTrace, validationSteps, contentSteps, doneStep,
          List.filter_append, tokenFilter_sinkSteps, Step.tokenOf, List.filter_cons]
        exact tokenOf_sinkSteps _

/-- witness for C7, discharging its hypotheses at a concrete run: the
ignored-files call carries the caller token, and the run that reaches the
mapper has exactly two token-carrying calls. -/
theorem C7_token_forwarding_witness :
    (tok0 = tok0 ∧
      (Step.isFileIsIgnoredCall (Step.fileIsIgnoredCall (URI.file "/a.txt") tok0) = true ∨
       Step.isMapCodeCall (Step.fileIsIgnoredCall (URI.file "/a.txt") tok0) = true)) ∧
    (((invoke goodEnv goodInv tok0).2).filter (fun x => (Step.tokenOf x).isSome)).length = 2 :=
  ⟨(C7_token_forwarding goodEnv goodInv tok0).1
      (Step.fileIsIgnoredCall (URI.file "/a.txt") tok0) (by decide) tok0 (by decide),
   (C7_token_forwarding goodEnv goodInv tok0).2.1
      (requestCodeBlocks goodInv.parameters) tok0 (by decide)⟩

end VSTools
